import Mathlib

/-!
# Verification of the Bluetooth trilateration simulator's core algorithms

Shallow embedding, over the real numbers, of the core algorithms of the
bluetooth-trilatration repository (`App.tsx`): the RSSI synthesis model
`calculateRSSI`, the inverse-model `estimateDistanceFromRSSI`, the wall
segment intersection test `findWallIntersections`, and the Gauss-Newton
trilateration solver `performTrilateration`, together with theorems about
the properties stated in the specification.

Modelling conventions:
* JavaScript `number` arithmetic is modelled by exact real arithmetic (`ℝ`);
  division by zero is `0` in this model, where JavaScript would yield
  `NaN`/`Infinity` (the spots where this matters are called out below).
* The Box-Muller noise sample `z0`, drawn from `Math.random()` in the source,
  is modelled as an explicit real parameter `noise` of `calculateRSSI`.
* The `for`/`break` iteration of `performTrilateration` is modelled by
  structural recursion on the remaining iteration count (`gnLoop`).
* The source's field `end` of a `Wall` is named `endP` here (`end` is a
  Lean keyword); subexpressions of the source (the angle factor, the
  normal-equation entries, the Gauss-Newton step) are named definitions so
  that theorems can speak about them directly.
-/

namespace BleSim

noncomputable section

/-- `Vector2D` from `types.ts`: a 2D point/vector with real coordinates. -/
structure Vector2D where
  x : ℝ
  y : ℝ
deriving DecidableEq

/-- A wall segment (`Wall` in `types.ts`), keeping only the fields the
algorithms read: the two endpoints and the attenuation in dB.  The source's
field `end` is called `endP`. -/
structure Wall where
  start : Vector2D
  endP : Vector2D
  attenuation : ℝ

/-- `Intersection` from `types.ts`: an intersection point together with the
wall that was crossed. -/
structure Intersection where
  point : Vector2D
  wall : Wall

/-- A measurement as consumed by `performTrilateration`: the radio (beacon)
position and the estimated distance in meters. -/
structure Measurement where
  radio : Vector2D
  estimatedDistance : ℝ

/-- The simulation parameters read by `calculateRSSI` (React state in the
source: `txPower`, `pathLossExponent`, the effect toggles and the noise
standard deviation). -/
structure Config where
  txPower : ℝ
  pathLossExponent : ℝ
  enableNoise : Bool
  noiseStdDev : ℝ
  enableWalls : Bool
  enableAngleEffect : Bool
  enableCumulativeEffect : Bool

/-- `PIXELS_PER_METER` from `constants.ts`. -/
def PIXELS_PER_METER : ℝ := 40

/-- `clamp(num, min, max) = Math.min(Math.max(num, min), max)`. -/
def clamp (num lo hi : ℝ) : ℝ := min (max num lo) hi

/-- `distance(p1, p2) = Math.sqrt((p1.x-p2.x)^2 + (p1.y-p2.y)^2)`. -/
def distance (p1 p2 : Vector2D) : ℝ :=
  Real.sqrt ((p1.x - p2.x) ^ 2 + (p1.y - p2.y) ^ 2)

/-- `Math.log10`, modelled as the real base-10 logarithm. -/
def log10 (x : ℝ) : ℝ := Real.logb 10 x

/-- The denominator `den` of the segment-intersection test in
`findWallIntersections`. -/
def intersectDen (p1 p2 p3 p4 : Vector2D) : ℝ :=
  (p1.x - p2.x) * (p3.y - p4.y) - (p1.y - p2.y) * (p3.x - p4.x)

/-- The parametric coordinate `t` (along `p1 → p2`) of the
segment-intersection test. -/
def intersectT (p1 p2 p3 p4 : Vector2D) : ℝ :=
  ((p1.x - p3.x) * (p3.y - p4.y) - (p1.y - p3.y) * (p3.x - p4.x)) /
    intersectDen p1 p2 p3 p4

/-- The parametric coordinate `u` (along the wall `p3 → p4`) of the
segment-intersection test. -/
def intersectU (p1 p2 p3 p4 : Vector2D) : ℝ :=
  (-((p1.x - p2.x) * (p1.y - p3.y) - (p1.y - p2.y) * (p1.x - p3.x))) /
    intersectDen p1 p2 p3 p4

/-- `findWallIntersections(p1, p2, currentWalls)`: for each wall in supply
order, skip it if the determinant `den` is zero, otherwise report a crossing
exactly when both parametric values lie strictly in `(0,1)`. -/
def findWallIntersections (p1 p2 : Vector2D) (currentWalls : List Wall) :
    List Intersection :=
  currentWalls.filterMap fun wall =>
    let p3 := wall.start
    let p4 := wall.endP
    if intersectDen p1 p2 p3 p4 = 0 then none
    else
      let t := intersectT p1 p2 p3 p4
      let u := intersectU p1 p2 p3 p4
      if 0 < t ∧ t < 1 ∧ 0 < u ∧ u < 1 then
        some ⟨⟨p1.x + t * (p2.x - p1.x), p1.y + t * (p2.y - p1.y)⟩, wall⟩
      else none

/-- The signal vector `receiver - transmitter` used by the angle effect. -/
def signalVec (transmitter receiver : Vector2D) : Vector2D :=
  ⟨receiver.x - transmitter.x, receiver.y - transmitter.y⟩

/-- The wall direction vector `end - start` used by the angle effect. -/
def wallVec (w : Wall) : Vector2D :=
  ⟨w.endP.x - w.start.x, w.endP.y - w.start.y⟩

/-- The angle-effect multiplier `0.5 + 0.5·|cos θ|` computed in
`calculateRSSI`: `wallNormal = (-wallVec.y, wallVec.x)`,
`cosTheta = dot / (magSignal · magNormal)`.  Note that the source has no
defensive branch for zero-magnitude vectors: with a zero-length signal
vector the division is `0/0` (`NaN` in JavaScript, `0` in this real
model). -/
def angleFactor (signalV wallV : Vector2D) : ℝ :=
  let wallNormal : Vector2D := ⟨-wallV.y, wallV.x⟩
  let dot := signalV.x * wallNormal.x + signalV.y * wallNormal.y
  let magSignal := Real.sqrt (signalV.x ^ 2 + signalV.y ^ 2)
  let magNormal := Real.sqrt (wallNormal.x ^ 2 + wallNormal.y ^ 2)
  let cosTheta := dot / (magSignal * magNormal)
  0.5 + 0.5 * |cosTheta|

/-- The per-wall loss after the (optional) angle effect:
`wallLoss = intersection.wall.attenuation`, then
`wallLoss *= angleFactor` when the angle effect is enabled. -/
def angleAdjustedLoss (cfg : Config) (transmitter receiver : Vector2D)
    (inter : Intersection) : ℝ :=
  if cfg.enableAngleEffect = true then
    inter.wall.attenuation *
      angleFactor (signalVec transmitter receiver) (wallVec inter.wall)
  else inter.wall.attenuation

/-- The contribution of the `i`-th crossed wall (0-indexed) to the total
attenuation: the angle-adjusted loss, additionally scaled by `1.1^i` when the
cumulative effect is enabled and `i > 0`. -/
def wallLossAt (cfg : Config) (transmitter receiver : Vector2D) (i : ℕ)
    (inter : Intersection) : ℝ :=
  if cfg.enableCumulativeEffect = true ∧ 0 < i then
    angleAdjustedLoss cfg transmitter receiver inter * (1.1 : ℝ) ^ i
  else angleAdjustedLoss cfg transmitter receiver inter

/-- `totalAttenuation`: the sum over `intersections.forEach((inter, i) => …)`
of the per-wall losses, in intersection order. -/
def totalAttenuation (cfg : Config) (transmitter receiver : Vector2D)
    (inters : List Intersection) : ℝ :=
  (inters.enum.map fun p => wallLossAt cfg transmitter receiver p.1 p.2).sum

/-- `calculateRSSI(distanceMeters, transmitter, receiver)` (the spec's
`synthesizeRSSI`): early-return `-30` at non-positive distance, then the
log-distance law, minus the wall attenuation when walls are enabled, plus
`z0 · noiseStdDev` when noise is enabled (`z0` modelled by the `noise`
parameter), finally clamped to `[-120, -30]`. -/
def calculateRSSI (cfg : Config) (walls : List Wall) (noise : ℝ)
    (distanceMeters : ℝ) (transmitter receiver : Vector2D) : ℝ :=
  if distanceMeters ≤ 0 then -30
  else
    let rssi0 := cfg.txPower - 10 * cfg.pathLossExponent * log10 distanceMeters
    let rssi1 :=
      if cfg.enableWalls = true then
        rssi0 - totalAttenuation cfg transmitter receiver
          (findWallIntersections transmitter receiver walls)
      else rssi0
    let rssi2 := if cfg.enableNoise = true then rssi1 + noise * cfg.noiseStdDev
      else rssi1
    clamp rssi2 (-120) (-30)

/-- `estimateDistanceFromRSSI(rssi) = 10 ^ ((txPower - rssi) / (10 · n))`
(the spec's `estimateDistance`); real exponentiation. -/
def estimateDistanceFromRSSI (cfg : Config) (rssi : ℝ) : ℝ :=
  (10 : ℝ) ^ ((cfg.txPower - rssi) / (10 * cfg.pathLossExponent))

/-- The initial guess of `performTrilateration`: the `1/estimatedDistance`
weighted centroid of the radio positions (a `reduce` accumulating the
weighted sum while side-accumulating `totalWeight`). -/
def initialGuess (ms : List Measurement) : Vector2D :=
  let totalWeight := ms.foldl (fun tw m => tw + 1 / m.estimatedDistance) 0
  let acc := ms.foldl
    (fun (acc : Vector2D) m =>
      ⟨acc.x + m.radio.x * (1 / m.estimatedDistance),
       acc.y + m.radio.y * (1 / m.estimatedDistance)⟩)
    ⟨0, 0⟩
  ⟨acc.x / totalWeight, acc.y / totalWeight⟩

/-- One iteration's usable rows: for each measurement, skip it when the
distance from the current estimate to the radio is below `1e-6`, else record
the Jacobian row `((pos-radio)/dist)` and the residual
`dist - estimatedDistance · PIXELS_PER_METER`. -/
def buildRows (ms : List Measurement) (pos : Vector2D) :
    List ((ℝ × ℝ) × ℝ) :=
  ms.filterMap fun m =>
    let radioPos : Vector2D := ⟨m.radio.x, m.radio.y⟩
    let dist := distance pos radioPos
    if dist < 1e-6 then none
    else
      some (((pos.x - radioPos.x) / dist, (pos.y - radioPos.y) / dist),
        dist - m.estimatedDistance * PIXELS_PER_METER)

/-- `JtJ[0][0]`: the sum of squared first row entries. -/
def rowsA (rows : List ((ℝ × ℝ) × ℝ)) : ℝ :=
  (rows.map fun row => row.1.1 * row.1.1).sum

/-- `JtJ[0][1] = JtJ[1][0]`: the sum of products of the row entries. -/
def rowsB (rows : List ((ℝ × ℝ) × ℝ)) : ℝ :=
  (rows.map fun row => row.1.1 * row.1.2).sum

/-- `JtJ[1][1]`: the sum of squared second row entries. -/
def rowsC (rows : List ((ℝ × ℝ) × ℝ)) : ℝ :=
  (rows.map fun row => row.1.2 * row.1.2).sum

/-- `det = JtJ[0][0]·JtJ[1][1] - JtJ[0][1]·JtJ[1][0]`. -/
def gnDet (rows : List ((ℝ × ℝ) × ℝ)) : ℝ :=
  rowsA rows * rowsC rows - rowsB rows * rowsB rows

/-- `Jtr[0]`: the first component of `Jᵀ r`. -/
def rowsJtr1 (rows : List ((ℝ × ℝ) × ℝ)) : ℝ :=
  (rows.map fun row => row.1.1 * row.2).sum

/-- `Jtr[1]`: the second component of `Jᵀ r`. -/
def rowsJtr2 (rows : List ((ℝ × ℝ) × ℝ)) : ℝ :=
  (rows.map fun row => row.1.2 * row.2).sum

/-- The Gauss-Newton step `delta = -(JtJ)⁻¹ · Jᵀr`, exactly as the source
computes it from `invDet = 1/det` and the adjugate. -/
def gnDelta (rows : List ((ℝ × ℝ) × ℝ)) : ℝ × ℝ :=
  let invDet := 1 / gnDet rows
  let inv00 := invDet * rowsC rows
  let inv01 := -invDet * rowsB rows
  let inv10 := -invDet * rowsB rows
  let inv11 := invDet * rowsA rows
  (-(inv00 * rowsJtr1 rows + inv01 * rowsJtr2 rows),
   -(inv10 * rowsJtr1 rows + inv11 * rowsJtr2 rows))

/-- The bounded Gauss-Newton iteration of `performTrilateration`, by
recursion on the number of remaining iterations.  A step returns the current
estimate unchanged when fewer than 2 usable rows remain (`return pos` in the
source) or when `|det| < 1e-9` (`break` before the update), and otherwise
applies the step, stopping when the step norm is below the convergence
threshold `0.1`. -/
def gnLoop (ms : List Measurement) : ℕ → Vector2D → Vector2D
  | 0, pos => pos
  | n + 1, pos =>
    let rows := buildRows ms pos
    if rows.length < 2 then pos
    else if |gnDet rows| < 1e-9 then pos
    else
      let delta := gnDelta rows
      let newPos : Vector2D := ⟨pos.x + delta.1, pos.y + delta.2⟩
      if Real.sqrt (delta.1 ^ 2 + delta.2 ^ 2) < 0.1 then newPos
      else gnLoop ms n newPos

/-- `performTrilateration(activeMeasurements)`: `null` (here `none`) for
fewer than 3 measurements, else the result of at most 50 Gauss-Newton
iterations from the weighted-centroid initial guess. -/
def performTrilateration (activeMeasurements : List Measurement) :
    Option Vector2D :=
  if activeMeasurements.length < 3 then none
  else some (gnLoop activeMeasurements 50 (initialGuess activeMeasurements))

/-! ## Generic helper lemmas -/

lemma neg120_le_clamp (num : ℝ) : -120 ≤ clamp num (-120) (-30) :=
  le_min (le_max_right _ _) (by norm_num)

lemma clamp_le_neg30 (num : ℝ) : clamp num (-120) (-30) ≤ -30 :=
  min_le_right _ _

lemma clamp_eq_self {num : ℝ} (h1 : -120 ≤ num) (h2 : num ≤ -30) :
    clamp num (-120) (-30) = num := by
  unfold clamp
  rw [max_eq_left h1, min_eq_left h2]

/-! ## Theorems for the claims -/

/-- **C4.** For every input (any distance, transmitter, receiver, wall list,
configuration, and any value of the noise sample, so in particular with
noise enabled), the value returned by `calculateRSSI` lies in the closed
interval `[-120, -30]`. -/
theorem calculateRSSI_mem_range (cfg : Config) (walls : List Wall)
    (noise distanceMeters : ℝ) (tx rx : Vector2D) :
    -120 ≤ calculateRSSI cfg walls noise distanceMeters tx rx ∧
      calculateRSSI cfg walls noise distanceMeters tx rx ≤ -30 := by
  by_cases hd : distanceMeters ≤ 0
  · simp only [calculateRSSI, if_pos hd]
    norm_num
  · simp only [calculateRSSI, if_neg hd]
    exact ⟨neg120_le_clamp _, clamp_le_neg30 _⟩

/-- **C9.** With fewer than 3 measurements `performTrilateration` returns
`none` (the explicit "no estimate" result); with at least 3 measurements it
always returns a point. -/
theorem performTrilateration_none_iff_lt_three :
    (∀ ms : List Measurement, ms.length < 3 → performTrilateration ms = none) ∧
      ∀ ms : List Measurement, 3 ≤ ms.length →
        ∃ p : Vector2D, performTrilateration ms = some p := by
  constructor
  · intro ms h
    simp [performTrilateration, h]
  · intro ms h
    exact ⟨_, by rw [performTrilateration, if_neg (by omega)]⟩

/-- Witness for `performTrilateration_none_iff_lt_three` at the empty list
and a concrete three-measurement list. -/
theorem performTrilateration_none_iff_lt_three_witness :
    (([] : List Measurement).length < 3 ∧
        performTrilateration ([] : List Measurement) = none) ∧
      3 ≤ [(⟨⟨0, 0⟩, 1⟩ : Measurement), ⟨⟨40, 0⟩, 1⟩, ⟨⟨0, 40⟩, 1⟩].length ∧
        ∃ p : Vector2D,
          performTrilateration
            [(⟨⟨0, 0⟩, 1⟩ : Measurement), ⟨⟨40, 0⟩, 1⟩, ⟨⟨0, 40⟩, 1⟩] = some p :=
  ⟨⟨by simp, performTrilateration_none_iff_lt_three.1 [] (by simp)⟩,
    ⟨by simp, performTrilateration_none_iff_lt_three.2 _ (by simp)⟩⟩

/-- **C10.** The solver is a bounded iteration: given at least 3
measurements it returns the result of at most 50 Gauss-Newton steps from
the initial guess (in particular it terminates with a point), and one step
returns the current estimate as-is when fewer than 2 usable rows remain,
returns the last estimate when `|det| < 1e-9`, and stops after applying the
update when the step norm falls below the convergence threshold `0.1`. -/
theorem performTrilateration_termination :
    (∀ ms : List Measurement, 3 ≤ ms.length →
        performTrilateration ms = some (gnLoop ms 50 (initialGuess ms))) ∧
      (∀ (ms : List Measurement) (pos : Vector2D) (n : ℕ),
        (buildRows ms pos).length < 2 → gnLoop ms (n + 1) pos = pos) ∧
      (∀ (ms : List Measurement) (pos : Vector2D) (n : ℕ),
        ¬(buildRows ms pos).length < 2 →
        |gnDet (buildRows ms pos)| < 1e-9 → gnLoop ms (n + 1) pos = pos) ∧
      ∀ (ms : List Measurement) (pos : Vector2D) (n : ℕ),
        ¬(buildRows ms pos).length < 2 →
        ¬|gnDet (buildRows ms pos)| < 1e-9 →
        Real.sqrt ((gnDelta (buildRows ms pos)).1 ^ 2 +
            (gnDelta (buildRows ms pos)).2 ^ 2) < 0.1 →
        gnLoop ms (n + 1) pos =
          ⟨pos.x + (gnDelta (buildRows ms pos)).1,
           pos.y + (gnDelta (buildRows ms pos)).2⟩ := by
  refine ⟨?_, ?_, ?_, ?_⟩
  · intro ms h
    rw [performTrilateration, if_neg (by omega)]
  · intro ms pos n h
    rw [gnLoop, if_pos h]
  · intro ms pos n h hdet
    rw [gnLoop, if_neg h, if_pos hdet]
  · intro ms pos n h hdet hstep
    rw [gnLoop, if_neg h, if_neg hdet]
    simp only [if_pos hstep]

/-- Witness for `performTrilateration_termination`: with three measurements
whose radio coincides with the current estimate, every row is skipped
(`dist < 1e-6`), so a step returns the estimate as-is. -/
theorem performTrilateration_termination_witness :
    (buildRows [(⟨⟨0, 0⟩, 1⟩ : Measurement), ⟨⟨0, 0⟩, 1⟩, ⟨⟨0, 0⟩, 1⟩]
        ⟨0, 0⟩).length < 2 ∧
      gnLoop [(⟨⟨0, 0⟩, 1⟩ : Measurement), ⟨⟨0, 0⟩, 1⟩, ⟨⟨0, 0⟩, 1⟩] 1 ⟨0, 0⟩ =
        ⟨0, 0⟩ := by
  have h : (buildRows [(⟨⟨0, 0⟩, 1⟩ : Measurement), ⟨⟨0, 0⟩, 1⟩, ⟨⟨0, 0⟩, 1⟩]
      ⟨0, 0⟩).length < 2 := by
    have hz : distance ⟨0, 0⟩ ⟨0, 0⟩ < 1e-6 := by
      simp only [distance]
      norm_num
    simp [buildRows, List.filterMap, hz]
  exact ⟨h, performTrilateration_termination.2.1 _ _ 0 h⟩

/-- **C8.** The total wall attenuation is the sum, over the crossings in
intersection order (index `i` from `enum`, 0-indexed), of the per-wall
losses; with the cumulative effect enabled the `i`-th crossing contributes
its (angle-adjusted) per-wall loss scaled by `1.1 ^ i` when `i > 0`, and the
0-th crossing's loss is not scaled by the cumulative factor. -/
theorem wallLossAt_cumulative :
    (∀ (cfg : Config) (tx rx : Vector2D) (inters : List Intersection),
        totalAttenuation cfg tx rx inters =
          (inters.enum.map fun p => wallLossAt cfg tx rx p.1 p.2).sum) ∧
      (∀ (cfg : Config) (tx rx : Vector2D) (i : ℕ) (inter : Intersection),
        cfg.enableCumulativeEffect = true → 0 < i →
        wallLossAt cfg tx rx i inter =
          angleAdjustedLoss cfg tx rx inter * (1.1 : ℝ) ^ i) ∧
      ∀ (cfg : Config) (tx rx : Vector2D) (inter : Intersection),
        wallLossAt cfg tx rx 0 inter = angleAdjustedLoss cfg tx rx inter := by
  refine ⟨fun _ _ _ _ => rfl, ?_, ?_⟩
  · intro cfg tx rx i inter hcum hi
    rw [wallLossAt, if_pos ⟨hcum, hi⟩]
  · intro cfg tx rx inter
    rw [wallLossAt, if_neg (by simp)]

/-- Witness for `wallLossAt_cumulative` at a concrete configuration with the
cumulative effect enabled and index `i = 1`. -/
theorem wallLossAt_cumulative_witness :
    (⟨-59, 2.7, false, 5, true, true, true⟩ : Config).enableCumulativeEffect
        = true ∧
      0 < 1 ∧
      wallLossAt ⟨-59, 2.7, false, 5, true, true, true⟩ ⟨0, 0⟩ ⟨10, 0⟩ 1
          ⟨⟨5, 0⟩, ⟨⟨5, -1⟩, ⟨5, 1⟩, 10⟩⟩ =
        angleAdjustedLoss ⟨-59, 2.7, false, 5, true, true, true⟩ ⟨0, 0⟩ ⟨10, 0⟩
            ⟨⟨5, 0⟩, ⟨⟨5, -1⟩, ⟨5, 1⟩, 10⟩⟩ * (1.1 : ℝ) ^ 1 :=
  ⟨rfl, Nat.one_pos,
    wallLossAt_cumulative.2.1 _ _ _ 1 _ rfl Nat.one_pos⟩

/-- **C6.** For a path `p1 → p2` and a single wall, the intersection test
reports a crossing exactly when the determinant is nonzero and both
parametric values `t`, `u` lie strictly in the open interval `(0, 1)`
(endpoint touches excluded); and whenever the determinant is exactly zero
(parallel or colinear segments) no intersection is reported. -/
theorem findWallIntersections_crossing_iff :
    ∀ (p1 p2 : Vector2D) (w : Wall),
      (findWallIntersections p1 p2 [w] ≠ [] ↔
        intersectDen p1 p2 w.start w.endP ≠ 0 ∧
          0 < intersectT p1 p2 w.start w.endP ∧
          intersectT p1 p2 w.start w.endP < 1 ∧
          0 < intersectU p1 p2 w.start w.endP ∧
          intersectU p1 p2 w.start w.endP < 1) ∧
      (intersectDen p1 p2 w.start w.endP = 0 →
        findWallIntersections p1 p2 [w] = []) := by
  intro p1 p2 w
  constructor
  · by_cases hden : intersectDen p1 p2 w.start w.endP = 0
    · simp [findWallIntersections, hden]
    · by_cases hc : 0 < intersectT p1 p2 w.start w.endP ∧
          intersectT p1 p2 w.start w.endP < 1 ∧
          0 < intersectU p1 p2 w.start w.endP ∧
          intersectU p1 p2 w.start w.endP < 1
      · simp only [findWallIntersections, List.filterMap, if_neg hden,
          if_pos hc]
        simp [hden, hc.1, hc.2.1, hc.2.2.1, hc.2.2.2]
      · simp only [findWallIntersections, List.filterMap, if_neg hden,
          if_neg hc]
        simp only [ne_eq, not_true_eq_false, false_iff, not_and]
        intro _ h1 h2 h3 h4
        exact hc ⟨h1, h2, h3, h4⟩
  · intro hden
    simp [findWallIntersections, hden]

/-- Witness for `findWallIntersections_crossing_iff`: for the horizontal
path from `(0,0)` to `(1,0)` and the parallel wall from `(0,1)` to `(1,1)`
the determinant is zero and no intersection is reported. -/
theorem findWallIntersections_crossing_iff_witness :
    intersectDen ⟨0, 0⟩ ⟨1, 0⟩ (⟨⟨0, 1⟩, ⟨1, 1⟩, 3⟩ : Wall).start
        (⟨⟨0, 1⟩, ⟨1, 1⟩, 3⟩ : Wall).endP = 0 ∧
      findWallIntersections ⟨0, 0⟩ ⟨1, 0⟩ [(⟨⟨0, 1⟩, ⟨1, 1⟩, 3⟩ : Wall)] = [] := by
  have hden : intersectDen ⟨0, 0⟩ ⟨1, 0⟩ (⟨⟨0, 1⟩, ⟨1, 1⟩, 3⟩ : Wall).start
      (⟨⟨0, 1⟩, ⟨1, 1⟩, 3⟩ : Wall).endP = 0 := by
    simp only [intersectDen]
    norm_num
  exact ⟨hden,
    (findWallIntersections_crossing_iff ⟨0, 0⟩ ⟨1, 0⟩ _).2 hden⟩

/-- **C3 (counterexample).** The claim says a zero-magnitude signal vector
yields the neutral per-wall multiplier `1.0`.  The source has no such
defensive branch: the multiplier expression at a zero-length signal vector
divides `0` by `0` (`NaN` in JavaScript, `0` in this real model, giving the
factor `0.5 + 0.5·|0| = 0.5`); in neither case is it the claimed `1.0`. -/
theorem angleFactor_zero_signal_ne_one :
    angleFactor ⟨0, 0⟩ ⟨0, 1⟩ = 0.5 ∧ angleFactor ⟨0, 0⟩ ⟨0, 1⟩ ≠ 1 := by
  have h : angleFactor ⟨0, 0⟩ ⟨0, 1⟩ = 0.5 := by
    simp only [angleFactor]
    norm_num
  exact ⟨h, by rw [h]; norm_num⟩

/-- **C3 (amended).** A zero-length signal vector never reaches the
angle-effect computation at all: when transmitter and receiver coincide,
every wall's determinant is zero, so `findWallIntersections` returns the
empty list and `calculateRSSI` applies no wall loss (it behaves exactly as
with an empty wall list); hence no division fault occurs in any execution
of `calculateRSSI`. -/
theorem zero_signal_no_intersections :
    ∀ (p : Vector2D) (walls : List Wall),
      findWallIntersections p p walls = [] ∧
        ∀ (cfg : Config) (noise d : ℝ),
          calculateRSSI cfg walls noise d p p =
            calculateRSSI cfg [] noise d p p := by
  intro p walls
  have hempty : findWallIntersections p p walls = [] := by
    rw [findWallIntersections, List.filterMap_eq_nil_iff]
    intro w _
    have hden : intersectDen p p w.start w.endP = 0 := by
      simp [intersectDen]
    simp [hden]
  refine ⟨hempty, ?_⟩
  intro cfg noise d
  have h2 : findWallIntersections p p ([] : List Wall) = [] := rfl
  simp only [calculateRSSI, hempty, h2]

/-- **C7.** For every pair of nonzero signal and wall vectors the
angle-effect multiplier `0.5 + 0.5·|cos θ|` lies in `[0.5, 1.0]`, and it
equals exactly `1.0` for head-on incidence (signal vector parallel to the
wall's normal `(-wallVec.y, wallVec.x)`). -/
theorem angleFactor_bounded :
    ∀ sv wv : Vector2D, sv ≠ ⟨0, 0⟩ → wv ≠ ⟨0, 0⟩ →
      (1 / 2 ≤ angleFactor sv wv ∧ angleFactor sv wv ≤ 1) ∧
        ∀ c : ℝ, c ≠ 0 → sv = ⟨c * -wv.y, c * wv.x⟩ → angleFactor sv wv = 1 := by
  intro sv wv hsv hwv
  obtain ⟨sx, sy⟩ := sv
  obtain ⟨wx, wy⟩ := wv
  have hs : ¬(sx = 0 ∧ sy = 0) := by
    rintro ⟨h1, h2⟩
    exact hsv (by rw [h1, h2])
  have hw : ¬(wx = 0 ∧ wy = 0) := by
    rintro ⟨h1, h2⟩
    exact hwv (by rw [h1, h2])
  have hs2 : 0 < sx ^ 2 + sy ^ 2 := by
    rcases not_and_or.mp hs with h | h
    · have := (sq_nonneg sx).lt_of_ne (Ne.symm (pow_ne_zero 2 h))
      nlinarith [sq_nonneg sy]
    · have := (sq_nonneg sy).lt_of_ne (Ne.symm (pow_ne_zero 2 h))
      nlinarith [sq_nonneg sx]
  have hw2 : 0 < (-wy) ^ 2 + wx ^ 2 := by
    rcases not_and_or.mp hw with h | h
    · have := (sq_nonneg wx).lt_of_ne (Ne.symm (pow_ne_zero 2 h))
      nlinarith [sq_nonneg wy]
    · have := (sq_nonneg wy).lt_of_ne (Ne.symm (pow_ne_zero 2 h))
      nlinarith [sq_nonneg wx]
  have hmS : 0 < Real.sqrt (sx ^ 2 + sy ^ 2) := Real.sqrt_pos.mpr hs2
  have hmN : 0 < Real.sqrt ((-wy) ^ 2 + wx ^ 2) := Real.sqrt_pos.mpr hw2
  have hms2 : Real.sqrt (sx ^ 2 + sy ^ 2) ^ 2 = sx ^ 2 + sy ^ 2 :=
    Real.sq_sqrt hs2.le
  have hmn2 : Real.sqrt ((-wy) ^ 2 + wx ^ 2) ^ 2 = (-wy) ^ 2 + wx ^ 2 :=
    Real.sq_sqrt hw2.le
  constructor
  · simp only [angleFactor]
    have hdot : (sx * -wy + sy * wx) ^ 2 ≤
        (Real.sqrt (sx ^ 2 + sy ^ 2) * Real.sqrt ((-wy) ^ 2 + wx ^ 2)) ^ 2 := by
      rw [mul_pow, hms2, hmn2]
      nlinarith [sq_nonneg (sx * wx + sy * wy)]
    have habs : |sx * -wy + sy * wx| ≤
        Real.sqrt (sx ^ 2 + sy ^ 2) * Real.sqrt ((-wy) ^ 2 + wx ^ 2) := by
      nlinarith [abs_nonneg (sx * -wy + sy * wx), mul_pos hmS hmN,
        sq_abs (sx * -wy + sy * wx)]
    have hcos : |(sx * -wy + sy * wx) /
        (Real.sqrt (sx ^ 2 + sy ^ 2) * Real.sqrt ((-wy) ^ 2 + wx ^ 2))| ≤ 1 := by
      rw [abs_div, abs_of_pos (mul_pos hmS hmN)]
      exact (div_le_one (mul_pos hmS hmN)).mpr habs
    have hnn : 0 ≤ |(sx * -wy + sy * wx) /
        (Real.sqrt (sx ^ 2 + sy ^ 2) * Real.sqrt ((-wy) ^ 2 + wx ^ 2))| :=
      abs_nonneg _
    set A := |(sx * -wy + sy * wx) /
        (Real.sqrt (sx ^ 2 + sy ^ 2) * Real.sqrt ((-wy) ^ 2 + wx ^ 2))| with hA
    constructor
    · linarith
    · linarith
  · intro c hc hsveq
    simp only [Vector2D.mk.injEq] at hsveq
    obtain ⟨h1, h2⟩ := hsveq
    subst h1
    subst h2
    simp only [angleFactor]
    have hS : (0 : ℝ) < (-wy) ^ 2 + wx ^ 2 := hw2
    have hnum : c * -wy * -wy + c * wx * wx = c * ((-wy) ^ 2 + wx ^ 2) := by
      ring
    have harg : (c * -wy) ^ 2 + (c * wx) ^ 2 = c ^ 2 * ((-wy) ^ 2 + wx ^ 2) := by
      ring
    rw [hnum, harg, Real.sqrt_mul (sq_nonneg c), Real.sqrt_sq_eq_abs,
      mul_assoc, Real.mul_self_sqrt hS.le,
      mul_div_mul_right _ _ (ne_of_gt hS), abs_div, abs_abs,
      div_self (ne_of_gt (abs_pos.mpr hc))]
    norm_num

/-- Witness for `angleFactor_bounded`: the vertical signal vector `(0,1)`
is head-on to the horizontal wall vector `(1,0)` (normal `(0,1)`), so the
multiplier is exactly `1`, and it lies in `[0.5, 1]`. -/
theorem angleFactor_bounded_witness :
    (⟨0, 1⟩ : Vector2D) ≠ ⟨0, 0⟩ ∧ (⟨1, 0⟩ : Vector2D) ≠ ⟨0, 0⟩ ∧
      (1 / 2 ≤ angleFactor ⟨0, 1⟩ ⟨1, 0⟩ ∧ angleFactor ⟨0, 1⟩ ⟨1, 0⟩ ≤ 1) ∧
      angleFactor ⟨0, 1⟩ ⟨1, 0⟩ = 1 := by
  have hsv : (⟨0, 1⟩ : Vector2D) ≠ ⟨0, 0⟩ := by
    simp [Vector2D.mk.injEq]
  have hwv : (⟨1, 0⟩ : Vector2D) ≠ ⟨0, 0⟩ := by
    simp [Vector2D.mk.injEq]
  refine ⟨hsv, hwv, (angleFactor_bounded ⟨0, 1⟩ ⟨1, 0⟩ hsv hwv).1, ?_⟩
  exact (angleFactor_bounded ⟨0, 1⟩ ⟨1, 0⟩ hsv hwv).2 1 (by norm_num)
    (by norm_num [Vector2D.mk.injEq])

/-- With walls and noise disabled and a positive distance, `calculateRSSI`
is exactly the clamped log-distance law (shared helper). -/
lemma calculateRSSI_no_walls_no_noise (cfg : Config) (walls : List Wall)
    (noise d : ℝ) (tx rx : Vector2D) (hw : cfg.enableWalls = false)
    (hn : cfg.enableNoise = false) (hd : 0 < d) :
    calculateRSSI cfg walls noise d tx rx =
      clamp (cfg.txPower - 10 * cfg.pathLossExponent * log10 d) (-120) (-30) := by
  rw [calculateRSSI, if_neg (not_le.mpr hd)]
  simp only [hw, hn, Bool.false_eq_true, if_false]

/-- `0.698 < log10 5`, from the integer inequality `10^698 < 5^1000`. -/
lemma log10_five_gt : (698 / 1000 : ℝ) < log10 5 := by
  have hb : (1 : ℝ) < 10 := by norm_num
  have h2 : Real.logb 10 ((10 : ℝ) ^ (698 : ℕ)) <
      Real.logb 10 ((5 : ℝ) ^ (1000 : ℕ)) := by
    apply Real.logb_lt_logb hb (by positivity)
    have h : (10 : ℕ) ^ 698 < 5 ^ 1000 := by norm_num
    exact_mod_cast h
  rw [Real.logb_pow, Real.logb_pow, Real.logb_self_eq_one hb] at h2
  push_cast at h2
  rw [log10]
  linarith

/-- `log10 5 < 0.699`, from the integer inequality `5^1000 < 10^699`. -/
lemma log10_five_lt : log10 5 < (699 / 1000 : ℝ) := by
  have hb : (1 : ℝ) < 10 := by norm_num
  have h2 : Real.logb 10 ((5 : ℝ) ^ (1000 : ℕ)) <
      Real.logb 10 ((10 : ℝ) ^ (699 : ℕ)) := by
    apply Real.logb_lt_logb hb (by positivity)
    have h : (5 : ℕ) ^ 1000 < 10 ^ 699 := by norm_num
    exact_mod_cast h
  rw [Real.logb_pow, Real.logb_pow, Real.logb_self_eq_one hb] at h2
  push_cast at h2
  rw [log10]
  linarith

/-- **C5.** With walls and noise disabled and `d > 0`, `calculateRSSI`
returns the clamp to `[-120, -30]` of
`txPowerAt1m - 10·n·log10(d)`; in particular with `txPower = -59`,
`pathLossExponent = 2.7` and a true distance of 5 meters the result is
within `0.05` of `-77.87`. -/
theorem calculateRSSI_log_distance :
    (∀ (cfg : Config) (walls : List Wall) (noise d : ℝ) (tx rx : Vector2D),
        cfg.enableWalls = false → cfg.enableNoise = false → 0 < d →
        calculateRSSI cfg walls noise d tx rx =
          clamp (cfg.txPower - 10 * cfg.pathLossExponent * log10 d)
            (-120) (-30)) ∧
      |calculateRSSI ⟨-59, 2.7, false, 5, false, true, true⟩ [] 0 5
          ⟨0, 0⟩ ⟨200, 0⟩ - (-77.87)| < 1 / 20 := by
  refine ⟨fun cfg walls noise d tx rx hw hn hd =>
    calculateRSSI_no_walls_no_noise cfg walls noise d tx rx hw hn hd, ?_⟩
  rw [calculateRSSI_no_walls_no_noise _ _ _ _ _ _ rfl rfl (by norm_num)]
  have hlo := log10_five_gt
  have hhi := log10_five_lt
  have hv1 : (-120 : ℝ) ≤ (-59 : ℝ) - 10 * 2.7 * log10 5 := by linarith
  have hv2 : (-59 : ℝ) - 10 * 2.7 * log10 5 ≤ -30 := by linarith
  have hcl : clamp ((-59 : ℝ) - 10 * 2.7 * log10 5) (-120) (-30) =
      (-59 : ℝ) - 10 * 2.7 * log10 5 := clamp_eq_self hv1 hv2
  simp only [hcl]
  rw [abs_lt]
  constructor <;> linarith

/-- Witness for `calculateRSSI_log_distance` at the default configuration
and `d = 5`. -/
theorem calculateRSSI_log_distance_witness :
    (⟨-59, 2.7, false, 5, false, true, true⟩ : Config).enableWalls = false ∧
      (⟨-59, 2.7, false, 5, false, true, true⟩ : Config).enableNoise = false ∧
      (0 : ℝ) < 5 ∧
      calculateRSSI ⟨-59, 2.7, false, 5, false, true, true⟩ [] 0 5
          ⟨0, 0⟩ ⟨200, 0⟩ =
        clamp ((-59 : ℝ) - 10 * 2.7 * log10 5) (-120) (-30) :=
  ⟨rfl, rfl, by norm_num,
    calculateRSSI_log_distance.1 ⟨-59, 2.7, false, 5, false, true, true⟩ [] 0 5
      ⟨0, 0⟩ ⟨200, 0⟩ rfl rfl (by norm_num)⟩

/-- **C1 (counterexample).** The round-trip claim fails for distances whose
unclamped RSSI leaves the sensor range: at the positive distance
`d = 10^(-10)` (walls and noise disabled, default configuration) the
synthesized RSSI saturates at the clamp bound `-30`, and the estimated
distance is more than `10000` times the true distance — not approximately
`d`. -/
theorem roundTrip_fails_at_tiny_distance :
    (0 : ℝ) < (10 : ℝ) ^ (-10 : ℝ) ∧
      estimateDistanceFromRSSI ⟨-59, 2.7, false, 5, false, true, true⟩
          (calculateRSSI ⟨-59, 2.7, false, 5, false, true, true⟩ [] 0
            ((10 : ℝ) ^ (-10 : ℝ)) ⟨0, 0⟩ ⟨1, 0⟩) >
        10000 * (10 : ℝ) ^ (-10 : ℝ) := by
  have hd : (0 : ℝ) < (10 : ℝ) ^ (-10 : ℝ) :=
    Real.rpow_pos_of_pos (by norm_num) _
  refine ⟨hd, ?_⟩
  have hlog : log10 ((10 : ℝ) ^ (-10 : ℝ)) = -10 := by
    rw [log10]
    exact Real.logb_rpow (by norm_num) (by norm_num)
  rw [calculateRSSI_no_walls_no_noise _ _ _ _ _ _ rfl rfl hd, hlog]
  have hcl : clamp ((-59 : ℝ) - 10 * 2.7 * (-10)) (-120) (-30) = -30 := by
    rw [clamp, max_eq_left (by norm_num), min_eq_right (by norm_num)]
  rw [hcl, estimateDistanceFromRSSI]
  have harg : ((-59 : ℝ) - (-30)) / (10 * 2.7) = -29 / 27 := by norm_num
  rw [harg]
  have h4 : (10000 : ℝ) * (10 : ℝ) ^ (-10 : ℝ) = (10 : ℝ) ^ (-6 : ℝ) := by
    have : (10000 : ℝ) = (10 : ℝ) ^ ((4 : ℕ) : ℝ) := by
      rw [Real.rpow_natCast]
      norm_num
    rw [this, ← Real.rpow_add (by norm_num : (0 : ℝ) < 10)]
    norm_num
  rw [h4]
  exact (Real.rpow_lt_rpow_left_iff (by norm_num : (1 : ℝ) < 10)).mpr
    (by norm_num)

/-- **C1 (amended).** For every `d > 0` with walls and noise disabled and a
positive path-loss exponent, *provided the unclamped log-distance value lies
in the sensor range `[-120, -30]`*, the round trip
`estimateDistanceFromRSSI (calculateRSSI d)` recovers `d` exactly. -/
theorem roundTrip_exact :
    ∀ (cfg : Config) (walls : List Wall) (noise d : ℝ) (tx rx : Vector2D),
      cfg.enableWalls = false → cfg.enableNoise = false →
      0 < cfg.pathLossExponent → 0 < d →
      -120 ≤ cfg.txPower - 10 * cfg.pathLossExponent * log10 d →
      cfg.txPower - 10 * cfg.pathLossExponent * log10 d ≤ -30 →
      estimateDistanceFromRSSI cfg (calculateRSSI cfg walls noise d tx rx)
        = d := by
  intro cfg walls noise d tx rx hw hn hnexp hd hlo hhi
  rw [calculateRSSI_no_walls_no_noise _ _ _ _ _ _ hw hn hd,
    clamp_eq_self hlo hhi, estimateDistanceFromRSSI]
  have hne : (10 : ℝ) * cfg.pathLossExponent ≠ 0 := by positivity
  have harg : (cfg.txPower -
      (cfg.txPower - 10 * cfg.pathLossExponent * log10 d)) /
        (10 * cfg.pathLossExponent) = log10 d := by
    field_simp
  rw [harg, log10]
  exact Real.rpow_logb (by norm_num) (by norm_num) hd

/-- Witness for `roundTrip_exact` at the default configuration and `d = 10`
(unclamped RSSI `-86 ∈ [-120, -30]`). -/
theorem roundTrip_exact_witness :
    (⟨-59, 2.7, false, 5, false, true, true⟩ : Config).enableWalls = false ∧
      (⟨-59, 2.7, false, 5, false, true, true⟩ : Config).enableNoise = false ∧
      (0 : ℝ) < 2.7 ∧ (0 : ℝ) < 10 ∧
      -120 ≤ (-59 : ℝ) - 10 * 2.7 * log10 10 ∧
      (-59 : ℝ) - 10 * 2.7 * log10 10 ≤ -30 ∧
      estimateDistanceFromRSSI ⟨-59, 2.7, false, 5, false, true, true⟩
        (calculateRSSI ⟨-59, 2.7, false, 5, false, true, true⟩ [] 0 10
          ⟨0, 0⟩ ⟨400, 0⟩) = 10 := by
  have h10 : log10 10 = 1 := by
    rw [log10]
    exact Real.logb_self_eq_one (by norm_num)
  refine ⟨rfl, rfl, by norm_num, by norm_num, by rw [h10]; norm_num,
    by rw [h10]; norm_num, ?_⟩
  exact roundTrip_exact ⟨-59, 2.7, false, 5, false, true, true⟩ [] 0 10
    ⟨0, 0⟩ ⟨400, 0⟩ rfl rfl (by norm_num) (by norm_num)
    (by rw [h10]; norm_num) (by rw [h10]; norm_num)

/-- `866.01 < √749989 < 866.02` (the common beacon distance of the
equilateral scenario, in canvas units, is `√749989 / 15`). -/
lemma sqrt749989_bounds : (86601 / 100 : ℝ) < Real.sqrt 749989 ∧
    Real.sqrt 749989 < 86602 / 100 := by
  constructor
  · rw [Real.lt_sqrt (by norm_num)]
    norm_num
  · rw [Real.sqrt_lt' (by norm_num)]
    norm_num

lemma scenario_d1 : distance ⟨50, 433 / 15⟩ ⟨0, 0⟩ = Real.sqrt 749989 / 15 := by
  rw [distance]
  have harg : ((50 : ℝ) - 0) ^ 2 + ((433 / 15 : ℝ) - 0) ^ 2 = 749989 / 225 := by
    norm_num
  rw [show ((⟨50, 433 / 15⟩ : Vector2D).x - (⟨0, 0⟩ : Vector2D).x) ^ 2 +
      ((⟨50, 433 / 15⟩ : Vector2D).y - (⟨0, 0⟩ : Vector2D).y) ^ 2 =
      (749989 / 225 : ℝ) from harg]
  rw [Real.sqrt_div (by norm_num) 225]
  rw [show (225 : ℝ) = 15 ^ 2 by norm_num, Real.sqrt_sq (by norm_num)]

lemma scenario_d2 : distance ⟨50, 433 / 15⟩ ⟨100, 0⟩ =
    Real.sqrt 749989 / 15 := by
  rw [distance]
  have harg : ((50 : ℝ) - 100) ^ 2 + ((433 / 15 : ℝ) - 0) ^ 2 = 749989 / 225 := by
    norm_num
  rw [show ((⟨50, 433 / 15⟩ : Vector2D).x - (⟨100, 0⟩ : Vector2D).x) ^ 2 +
      ((⟨50, 433 / 15⟩ : Vector2D).y - (⟨100, 0⟩ : Vector2D).y) ^ 2 =
      (749989 / 225 : ℝ) from harg]
  rw [Real.sqrt_div (by norm_num) 225]
  rw [show (225 : ℝ) = 15 ^ 2 by norm_num, Real.sqrt_sq (by norm_num)]

lemma scenario_d3 : distance ⟨50, 433 / 15⟩ ⟨50, 433 / 5⟩ = 866 / 15 := by
  rw [distance]
  have harg : ((50 : ℝ) - 50) ^ 2 + ((433 / 15 : ℝ) - 433 / 5) ^ 2 =
      ((866 / 15 : ℝ)) ^ 2 := by
    norm_num
  rw [show ((⟨50, 433 / 15⟩ : Vector2D).x - (⟨50, 433 / 5⟩ : Vector2D).x) ^ 2 +
      ((⟨50, 433 / 15⟩ : Vector2D).y - (⟨50, 433 / 5⟩ : Vector2D).y) ^ 2 =
      ((866 / 15 : ℝ)) ^ 2 from harg]
  exact Real.sqrt_sq (by norm_num)

/-- The usable rows of the first Gauss-Newton iteration of the equilateral
scenario. -/
lemma scenario_rows : buildRows
    [(⟨⟨0, 0⟩, 577 / 400⟩ : Measurement), ⟨⟨100, 0⟩, 577 / 400⟩,
      ⟨⟨50, 433 / 5⟩, 577 / 400⟩] ⟨50, 433 / 15⟩ =
    [((750 / Real.sqrt 749989, 433 / Real.sqrt 749989),
        Real.sqrt 749989 / 15 - 577 / 10),
      ((-750 / Real.sqrt 749989, 433 / Real.sqrt 749989),
        Real.sqrt 749989 / 15 - 577 / 10),
      ((0, -1), 1 / 30)] := by
  have hs1 := sqrt749989_bounds.1
  have hsne : Real.sqrt 749989 ≠ 0 := by
    intro h
    rw [h] at hs1
    norm_num at hs1
  have h1 : ((Real.sqrt 749989 / 15 : ℝ) < 1e-6) = False := by
    apply eq_false
    intro h
    nlinarith
  have h3 : (((866 : ℝ) / 15) < 1e-6) = False := by
    apply eq_false
    norm_num
  simp only [buildRows, List.filterMap_cons, List.filterMap_nil, scenario_d1,
    scenario_d2, scenario_d3, PIXELS_PER_METER, h1, h3, if_false]
  simp only [List.cons.injEq, Prod.mk.injEq]
  refine ⟨⟨⟨?_, ?_⟩, ?_⟩, ⟨⟨?_, ?_⟩, ?_⟩, ⟨⟨?_, ?_⟩, ?_⟩, trivial⟩ <;>
    norm_num [div_div_eq_mul_div]

/-- The weighted-centroid initial guess of the equilateral scenario is the
plain centroid `(50, 433/15)` (all three weights are equal). -/
lemma scenario_initialGuess : initialGuess
    [(⟨⟨0, 0⟩, 577 / 400⟩ : Measurement), ⟨⟨100, 0⟩, 577 / 400⟩,
      ⟨⟨50, 433 / 5⟩, 577 / 400⟩] = ⟨50, 433 / 15⟩ := by
  simp only [initialGuess, List.foldl]
  rw [Vector2D.mk.injEq]
  norm_num

/-- **C2.** For three beacons at `(0,0)`, `(100,0)`, `(50, 86.6)` each
reporting estimated distance `57.7` in beacon-coordinate units (the stored
`estimatedDistance` is `57.7 / 40` meters, which the solver rescales by
`PIXELS_PER_METER = 40`), `performTrilateration` converges — the first
Gauss-Newton step already has norm below the convergence threshold `0.1` —
to a point within `0.1` of the centroid `(50, 28.9)`. -/
theorem trilateration_equilateral_scenario :
    ∃ p : Vector2D,
      performTrilateration
          [(⟨⟨0, 0⟩, 577 / 400⟩ : Measurement), ⟨⟨100, 0⟩, 577 / 400⟩,
            ⟨⟨50, 433 / 5⟩, 577 / 400⟩] = some p ∧
        |p.x - 50| ≤ 1 / 10 ∧ |p.y - 28.9| ≤ 1 / 10 := by
  have hs1 := sqrt749989_bounds.1
  have hs2 := sqrt749989_bounds.2
  have hsne : Real.sqrt 749989 ≠ 0 := by
    intro h
    rw [h] at hs1
    norm_num at hs1
  have hss : Real.sqrt 749989 * Real.sqrt 749989 = 749989 :=
    Real.mul_self_sqrt (by norm_num)
  set s := Real.sqrt 749989 with hs_def
  set L : List ((ℝ × ℝ) × ℝ) :=
    [((750 / s, 433 / s), s / 15 - 577 / 10),
      ((-750 / s, 433 / s), s / 15 - 577 / 10),
      ((0, -1), 1 / 30)] with hL
  have key : ∀ p q : ℝ, p / s * (q / s) = p * q / 749989 := fun p q => by
    rw [div_mul_div_comm, hss]
  have ha : rowsA L = 1125000 / 749989 := by
    simp only [rowsA, hL, List.map_cons, List.map_nil, List.sum_cons,
      List.sum_nil]
    simp only [key]
    norm_num
  have hb : rowsB L = 0 := by
    simp only [rowsB, hL, List.map_cons, List.map_nil, List.sum_cons,
      List.sum_nil]
    simp only [key]
    norm_num
  have hc : rowsC L = 1124967 / 749989 := by
    simp only [rowsC, hL, List.map_cons, List.map_nil, List.sum_cons,
      List.sum_nil]
    simp only [key]
    norm_num
  have hdet : gnDet L = 1125000 / 749989 * (1124967 / 749989) := by
    rw [gnDet, ha, hb, hc]
    ring
  have hjtr1 : rowsJtr1 L = 0 := by
    simp only [rowsJtr1, hL, List.map_cons, List.map_nil, List.sum_cons,
      List.sum_nil]
    ring
  have hjtr2 : rowsJtr2 L = 1731 / 30 - 499682 / (10 * s) := by
    simp only [rowsJtr2, hL, List.map_cons, List.map_nil, List.sum_cons,
      List.sum_nil]
    field_simp
    ring
  have hd1 : (gnDelta L).1 = 0 := by
    simp only [gnDelta, hb, hjtr1]
    ring
  have hd2 : (gnDelta L).2 =
      -(749989 / 1124967 * (1731 / 30 - 499682 / (10 * s))) := by
    simp only [gnDelta, hdet, ha, hb, hjtr1, hjtr2]
    norm_num
  have h10s_lo : (866010 / 100 : ℝ) < 10 * s := by linarith
  have h10s_hi : 10 * s < (866020 / 100 : ℝ) := by linarith
  have hq_hi : 499682 / (10 * s) < 499682 / (866010 / 100 : ℝ) :=
    div_lt_div_of_pos_left (by norm_num) (by norm_num) h10s_lo
  have hq_lo : (499682 / (866020 / 100 : ℝ) : ℝ) < 499682 / (10 * s) :=
    div_lt_div_of_pos_left (by norm_num) (by linarith) h10s_hi
  have hd2_lo : -(1 / 1000 : ℝ) < (gnDelta L).2 := by
    rw [hd2]
    nlinarith
  have hd2_hi : (gnDelta L).2 < -(4 / 10000 : ℝ) := by
    rw [hd2]
    nlinarith
  have hcond : Real.sqrt ((gnDelta L).1 ^ 2 + (gnDelta L).2 ^ 2) < 0.1 := by
    rw [hd1]
    rw [show (0 : ℝ) ^ 2 + (gnDelta L).2 ^ 2 = (gnDelta L).2 ^ 2 by ring]
    rw [Real.sqrt_sq_eq_abs, abs_lt]
    constructor <;> nlinarith
  have hlen : ¬ (L.length < 2) := by simp [hL]
  have hdetc : ¬ (|gnDet L| < 1e-9) := by
    rw [hdet, abs_of_pos (by norm_num)]
    norm_num
  have hrows := scenario_rows
  rw [← hs_def, ← hL] at hrows
  have hloop : gnLoop
      [(⟨⟨0, 0⟩, 577 / 400⟩ : Measurement), ⟨⟨100, 0⟩, 577 / 400⟩,
        ⟨⟨50, 433 / 5⟩, 577 / 400⟩] 50 ⟨50, 433 / 15⟩ =
      ⟨50 + (gnDelta L).1, 433 / 15 + (gnDelta L).2⟩ := by
    rw [show (50 : ℕ) = 49 + 1 from rfl, gnLoop]
    simp only [hrows]
    rw [if_neg hlen, if_neg hdetc, if_pos hcond]
  refine ⟨⟨50 + (gnDelta L).1, 433 / 15 + (gnDelta L).2⟩, ?_, ?_, ?_⟩
  · rw [performTrilateration, if_neg (by norm_num), scenario_initialGuess,
      hloop]
  · rw [hd1]
    norm_num
  · simp only
    rw [abs_le]
    constructor <;> nlinarith

end

end BleSim
